import Mathlib

/-!
Verification of the Scheduling & Interaction-Control Engine of the arok-mini
repository, as a shallow embedding.

The scheduler side embeds `SchedulerService` (src/services/scheduler/:
`shouldJobRun`, `executeJob`, `processJobs`, `handleJobComplete`,
`handleJobError`).  Time is modelled as `Nat` (milliseconds since epoch, the
value of `Date.now()` / ISO timestamps), the key-value cache as explicit maps
from job id to stored rows, the external `cron-parser` library as an opaque
function parameter `cronNext : String → Nat → Option Nat` returning the next
trigger strictly after the given time (`none` models a thrown parse/next
error), and a job handler as a pure `Unit → Except String String` (`.error`
models a thrown/rejected promise).
-/

namespace Arok

/-- Status field of a `JobResult` (the TS union `"success" | "error"`). -/
inductive JobStatus where
  | success
  | error
deriving DecidableEq

/-- The `JobResult` record built by `SchedulerService.executeJob`. -/
structure JobResult where
  jobId : String
  status : JobStatus
  error : Option String
  timestamp : Nat
  result : Option String
deriving DecidableEq

/-- A registered job: id, cron schedule string, and handler.  The handler is
modelled as a pure function; `.error msg` models a throw/rejection with
message `msg`. -/
structure Job where
  id : String
  schedule : String
  handler : Unit → Except String String

/-- Outcome of a cache read: the read may throw (`readError`), find nothing
(`missing`), or return a stored value. -/
inductive ReadResult (α : Type) where
  | readError
  | missing
  | found (v : α)
deriving DecidableEq

/-- The persisted per-job rows of the scheduler (keys
`scheduler:job:<id>:lastRun` / `:lastResult` / `:lastError`), modelled as
total maps from job id. -/
structure JobStore where
  lastRun : String → ReadResult Nat
  lastResult : String → Option JobResult
  lastError : String → Option JobResult

/-- Pointwise update of a string-keyed map. -/
def setKey {α : Type} (f : String → α) (k : String) (v : α) : String → α :=
  fun x => if x = k then v else f x

/-- `SchedulerService.shouldJobRun`: the whole body sits in a try/catch that
returns `false`, so a failing `lastRun` read or a cron parse error yields
`false`; a missing `lastRun` yields `true` (first run) before the cron
expression is ever parsed; otherwise the job is due iff the next trigger
strictly after `lastRun` is ≤ `now`. -/
def shouldJobRun (cronNext : String → Nat → Option Nat) (store : JobStore)
    (job : Job) (now : Nat) : Bool :=
  match store.lastRun job.id with
  | .readError => false
  | .missing => true
  | .found lastRun =>
    match cronNext job.schedule lastRun with
    | none => false
    | some nextRun => decide (nextRun ≤ now)

/-- The `JobResult` that `executeJob` returns for a job run at time `now`. -/
def jobResultOf (job : Job) (now : Nat) : JobResult :=
  match job.handler () with
  | .ok r => ⟨job.id, .success, none, now, some r⟩
  | .error msg => ⟨job.id, .error, some msg, now, none⟩

/-- `SchedulerService.executeJob` together with the event handlers it
triggers: on success `handleJobComplete` persists `lastRun` and `lastResult`;
on a thrown handler `handleJobError` persists only `lastError`. -/
def executeJob (job : Job) (now : Nat) (store : JobStore) :
    JobResult × JobStore :=
  match job.handler () with
  | .ok r =>
    (⟨job.id, .success, none, now, some r⟩,
     { store with
        lastRun := setKey store.lastRun job.id (.found now),
        lastResult := setKey store.lastResult job.id
          (some ⟨job.id, .success, none, now, some r⟩) })
  | .error msg =>
    (⟨job.id, .error, some msg, now, none⟩,
     { store with
        lastError := setKey store.lastError job.id
          (some ⟨job.id, .error, some msg, now, none⟩) })

/-- The due sublist computed by `processJobs` (`jobsToRun`). -/
def dueJobs (cronNext : String → Nat → Option Nat) (jobs : List Job)
    (store : JobStore) (now : Nat) : List Job :=
  jobs.filter (fun j => shouldJobRun cronNext store j now)

/-- Execute a batch of jobs in order, threading the persisted store. -/
def runJobs (now : Nat) : List Job → JobStore → List JobResult × JobStore
  | [], store => ([], store)
  | j :: rest, store =>
    let out := executeJob j now store
    let tail := runJobs now rest out.2
    (out.1 :: tail.1, tail.2)

/-- `SchedulerService.processJobs`: evaluate due-status of every registered
job against the incoming store, execute all due jobs, and return
`{timestamp, results}` along with the updated persisted store. -/
def processJobs (cronNext : String → Nat → Option Nat) (jobs : List Job)
    (store : JobStore) (now : Nat) : (Nat × List JobResult) × JobStore :=
  let due := dueJobs cronNext jobs store now
  let out := runJobs now due store
  ((now, out.1), out.2)

/-- Whether a job's handler throws. -/
def handlerFails (j : Job) : Prop := ∃ msg, j.handler () = .error msg

lemma runJobs_results (now : Nat) (l : List Job) (store : JobStore) :
    (runJobs now l store).1 = l.map (fun j => jobResultOf j now) := by
  induction l generalizing store with
  | nil => rfl
  | cons j rest ih =>
    cases h : j.handler () with
    | ok r => simp [runJobs, executeJob, jobResultOf, h, ih]
    | error msg => simp [runJobs, executeJob, jobResultOf, h, ih]

lemma executeJob_lastRun_of_ne (job : Job) (now : Nat) (store : JobStore)
    (i : String) (h : job.id ≠ i) :
    (executeJob job now store).2.lastRun i = store.lastRun i := by
  cases hh : job.handler () with
  | ok r =>
    simp only [executeJob, hh, setKey]
    rw [if_neg (fun hi => h hi.symm)]
  | error msg => simp [executeJob, hh]

lemma executeJob_lastError_of_ne (job : Job) (now : Nat) (store : JobStore)
    (i : String) (h : job.id ≠ i) :
    (executeJob job now store).2.lastError i = store.lastError i := by
  cases hh : job.handler () with
  | ok r => simp [executeJob, hh]
  | error msg =>
    simp only [executeJob, hh, setKey]
    rw [if_neg (fun hi => h hi.symm)]

lemma runJobs_lastRun_of_errors (now : Nat) (l : List Job) (store : JobStore)
    (i : String) (h : ∀ j ∈ l, j.id = i → handlerFails j) :
    (runJobs now l store).2.lastRun i = store.lastRun i := by
  induction l generalizing store with
  | nil => rfl
  | cons j rest ih =>
    have hstep : (executeJob j now store).2.lastRun i = store.lastRun i := by
      by_cases hid : j.id = i
      · obtain ⟨msg, hmsg⟩ := h j (List.mem_cons_self _ _) hid
        simp [executeJob, hmsg]
      · exact executeJob_lastRun_of_ne j now store i hid
    have htail := ih (executeJob j now store).2
      (fun k hk hkid => h k (List.mem_cons_of_mem _ hk) hkid)
    simp [runJobs]
    rw [htail, hstep]

lemma runJobs_lastError_of_absent (now : Nat) (l : List Job)
    (store : JobStore) (i : String) (h : ∀ j ∈ l, j.id ≠ i) :
    (runJobs now l store).2.lastError i = store.lastError i := by
  induction l generalizing store with
  | nil => rfl
  | cons j rest ih =>
    have hstep := executeJob_lastError_of_ne j now store i
      (h j (List.mem_cons_self _ _))
    have htail := ih (executeJob j now store).2
      (fun k hk => h k (List.mem_cons_of_mem _ hk))
    simp [runJobs]
    rw [htail, hstep]

lemma runJobs_lastError_of_unique (now : Nat) (l : List Job)
    (store : JobStore) (j : Job) (msg : String)
    (herr : j.handler () = .error msg)
    (hflt : l.filter (fun k => k.id == j.id) = [j]) :
    (runJobs now l store).2.lastError j.id
      = some ⟨j.id, .error, some msg, now, none⟩ := by
  induction l generalizing store with
  | nil => simp at hflt
  | cons k rest ih =>
    by_cases hk : (k.id == j.id) = true
    · have hkk : List.filter (fun k => k.id == j.id) (k :: rest)
          = k :: rest.filter (fun k2 => k2.id == j.id) := by
        simp [List.filter, hk]
      rw [hkk] at hflt
      have hkj : k = j := (List.cons_eq_cons.mp hflt).1
      have hrest : rest.filter (fun k2 => k2.id == j.id) = [] :=
        (List.cons_eq_cons.mp hflt).2
      have habsent : ∀ m ∈ rest, m.id ≠ j.id := by
        intro m hm
        have := List.filter_eq_nil_iff.mp hrest m hm
        simpa using this
      subst hkj
      have hstep : (executeJob k now store).2.lastError k.id
          = some ⟨k.id, .error, some msg, now, none⟩ := by
        simp [executeJob, herr, setKey]
      simp only [runJobs]
      rw [runJobs_lastError_of_absent now rest _ k.id habsent, hstep]
    · have hkk : List.filter (fun k2 => k2.id == j.id) (k :: rest)
          = rest.filter (fun k2 => k2.id == j.id) := by
        simp [List.filter, hk]
      rw [hkk] at hflt
      simp only [runJobs]
      exact ih _ hflt

/-- C2: a registered job is executed by `processJobs` at time `now` iff
either no persisted `lastRun` exists (first run) or the cron expression's
next trigger strictly after the persisted `lastRun` is ≤ `now`; a job whose
next trigger lies strictly in the future is not executed, and the results
returned are exactly those of the due jobs. -/
theorem processJobs_due_iff (cronNext : String → Nat → Option Nat)
    (jobs : List Job) (store : JobStore) (now : Nat) (j : Job)
    (hj : j ∈ jobs) :
    ((processJobs cronNext jobs store now).1.2
        = (dueJobs cronNext jobs store now).map (fun k => jobResultOf k now))
    ∧ (j ∈ dueJobs cronNext jobs store now
        ↔ shouldJobRun cronNext store j now = true)
    ∧ (store.lastRun j.id = .missing → j ∈ dueJobs cronNext jobs store now)
    ∧ (∀ L n, store.lastRun j.id = .found L → cronNext j.schedule L = some n →
        (j ∈ dueJobs cronNext jobs store now ↔ n ≤ now))
    ∧ (∀ L n, store.lastRun j.id = .found L → cronNext j.schedule L = some n →
        now < n → j ∉ dueJobs cronNext jobs store now) := by
  have hmem : j ∈ dueJobs cronNext jobs store now
      ↔ shouldJobRun cronNext store j now = true := by
    constructor
    · intro h
      exact (List.mem_filter.mp h).2
    · intro h
      exact List.mem_filter.mpr ⟨hj, h⟩
  refine ⟨?_, hmem, ?_, ?_, ?_⟩
  · simp [processJobs, runJobs_results]
  · intro h
    exact hmem.mpr (by simp [shouldJobRun, h])
  · intro L n hL hn
    rw [hmem]
    simp [shouldJobRun, hL, hn]
  · intro L n hL hn hlt
    rw [hmem]
    simp [shouldJobRun, hL, hn]
    omega

lemma shouldJobRun_congr_lastRun (cronNext : String → Nat → Option Nat)
    (st1 st2 : JobStore) (j : Job) (t : Nat)
    (h : st1.lastRun j.id = st2.lastRun j.id) :
    shouldJobRun cronNext st1 j t = shouldJobRun cronNext st2 j t := by
  simp only [shouldJobRun]
  rw [h]

/-- C3: in one `processJobs` batch, a job whose handler throws yields a
`JobResult` with status `error` carrying the thrown message, does not
prevent any other due job from producing its result, and persists only
`lastError` for that job — the persisted `lastRun` row is untouched, so the
job's due-status at any later heartbeat is unchanged. -/
theorem processJobs_error_isolated (cronNext : String → Nat → Option Nat)
    (jobs : List Job) (store : JobStore) (now : Nat) (j : Job) (msg : String)
    (hdue : j ∈ dueJobs cronNext jobs store now)
    (herr : j.handler () = .error msg)
    (huniq : (dueJobs cronNext jobs store now).filter
        (fun k => k.id == j.id) = [j]) :
    ((⟨j.id, .error, some msg, now, none⟩ : JobResult)
        ∈ (processJobs cronNext jobs store now).1.2)
    ∧ ((processJobs cronNext jobs store now).1.2
        = (dueJobs cronNext jobs store now).map (fun k => jobResultOf k now))
    ∧ ((processJobs cronNext jobs store now).2.lastRun j.id
        = store.lastRun j.id)
    ∧ ((processJobs cronNext jobs store now).2.lastError j.id
        = some ⟨j.id, .error, some msg, now, none⟩)
    ∧ (∀ t2, shouldJobRun cronNext (processJobs cronNext jobs store now).2 j t2
        = shouldJobRun cronNext store j t2) := by
  have hres : (processJobs cronNext jobs store now).1.2
      = (dueJobs cronNext jobs store now).map (fun k => jobResultOf k now) := by
    simp [processJobs, runJobs_results]
  have hall : ∀ k ∈ dueJobs cronNext jobs store now, k.id = j.id → k = j := by
    intro k hk hkid
    have hkmem : k ∈ (dueJobs cronNext jobs store now).filter
        (fun k2 => k2.id == j.id) :=
      List.mem_filter.mpr ⟨hk, by simp [hkid]⟩
    rw [huniq] at hkmem
    simpa using hkmem
  have hlastRun : (processJobs cronNext jobs store now).2.lastRun j.id
      = store.lastRun j.id := by
    simp only [processJobs]
    exact runJobs_lastRun_of_errors now _ store j.id
      (fun k hk hkid => (hall k hk hkid ▸ ⟨msg, herr⟩ : handlerFails k))
  refine ⟨?_, hres, hlastRun, ?_, ?_⟩
  · rw [hres]
    have : jobResultOf j now = ⟨j.id, .error, some msg, now, none⟩ := by
      simp [jobResultOf, herr]
    exact this ▸ List.mem_map_of_mem _ hdue
  · simp only [processJobs]
    exact runJobs_lastError_of_unique now _ store j msg herr huniq
  · intro t2
    exact shouldJobRun_congr_lastRun cronNext _ store j t2 hlastRun

/-- C10: due-status evaluation never propagates an error — a failing
`lastRun` read yields `false`; the first-run check precedes cron parsing,
so a job with an unparseable schedule is still due (and executed) while no
`lastRun` is persisted, and is never due again once a successful execution
has persisted `lastRun`. -/
theorem shouldJobRun_error_safe (cronNext : String → Nat → Option Nat)
    (jobs : List Job) (store : JobStore) (j : Job) (now : Nat) :
    (store.lastRun j.id = .readError →
        shouldJobRun cronNext store j now = false)
    ∧ (store.lastRun j.id = .missing →
        shouldJobRun cronNext store j now = true)
    ∧ (store.lastRun j.id = .missing → j ∈ jobs →
        j ∈ dueJobs cronNext jobs store now)
    ∧ (∀ L, store.lastRun j.id = .found L → cronNext j.schedule L = none →
        shouldJobRun cronNext store j now = false)
    ∧ (∀ r now2, j.handler () = .ok r → (∀ x, cronNext j.schedule x = none) →
        shouldJobRun cronNext (executeJob j now store).2 j now2 = false) := by
  refine ⟨?_, ?_, ?_, ?_, ?_⟩
  · intro h
    simp [shouldJobRun, h]
  · intro h
    simp [shouldJobRun, h]
  · intro h hj
    exact List.mem_filter.mpr ⟨hj, by simp [shouldJobRun, h]⟩
  · intro L hL hcron
    simp [shouldJobRun, hL, hcron]
  · intro r now2 hok hcron
    simp [executeJob, hok, shouldJobRun, setKey, hcron]

/-- A job whose handler succeeds, used to instantiate scheduler theorems. -/
def jobA : Job := ⟨"a", "*/10 * * * *", fun _ => .ok "done"⟩

/-- A job whose handler throws, used to instantiate scheduler theorems. -/
def jobB : Job := ⟨"b", "*/10 * * * *", fun _ => .error "boom"⟩

/-- A store with no persisted rows at all. -/
def store0 : JobStore := ⟨fun _ => .missing, fun _ => none, fun _ => none⟩

/-- A store whose `lastRun` reads all fail. -/
def storeR : JobStore := ⟨fun _ => .readError, fun _ => none, fun _ => none⟩

/-- A store with `lastRun = 0` persisted for every job. -/
def storeL : JobStore := ⟨fun _ => .found 0, fun _ => none, fun _ => none⟩

/-- A cron evaluator granting the next slot ten minutes after the given
time (the behavior of a ten-minute cron schedule at slot boundaries). -/
def cron0 : String → Nat → Option Nat := fun _ t => some (t + 600000)

/-- A cron evaluator that always throws (unparseable schedule). -/
def cronBad : String → Nat → Option Nat := fun _ _ => none

theorem processJobs_due_iff_witness :
    jobA ∈ dueJobs cron0 [jobA] storeL 600000 :=
  ((processJobs_due_iff cron0 [jobA] storeL 600000 jobA
    (by simp)).2.2.2.1 0 600000 rfl rfl).mpr (by norm_num)

theorem processJobs_error_isolated_witness :
    (processJobs cron0 [jobB] store0 5).2.lastError jobB.id
      = some ⟨"b", .error, some "boom", 5, none⟩ :=
  (processJobs_error_isolated cron0 [jobB] store0 5 jobB "boom"
    (List.mem_filter.mpr ⟨by simp, by simp [shouldJobRun, store0]⟩) rfl
    (by simp [dueJobs, shouldJobRun, store0])).2.2.2.1

theorem shouldJobRun_error_safe_witness :
    shouldJobRun cron0 storeR jobA 5 = false
    ∧ shouldJobRun cronBad store0 jobA 5 = true
    ∧ shouldJobRun cronBad storeL jobA 5 = false
    ∧ shouldJobRun cronBad (executeJob jobA 7 store0).2 jobA 700000 = false :=
  ⟨(shouldJobRun_error_safe cron0 [] storeR jobA 5).1 rfl,
   (shouldJobRun_error_safe cronBad [] store0 jobA 5).2.1 rfl,
   (shouldJobRun_error_safe cronBad [] storeL jobA 5).2.2.2.1 0 rfl rfl,
   (shouldJobRun_error_safe cronBad [] store0 jobA 7).2.2.2.2 "done" 700000
     rfl (fun _ => rfl)⟩

/-!
### Interaction-Control Engine

Shallow embedding of `TwitterInteractionControl`
(src/plugins/plugin-twitter/interaction-control.ts).  The in-memory state
(`processedItems : Set<string>` and `controls : Map<string,
InteractionControl>`) is modelled as insertion-ordered lists; `Date.now()` is
an explicit `now : Nat` argument; `Math.random()` is an explicit rational
draw; the single `cacheService.set` performed by `updateControlCache` is
modelled by an `Except Unit Unit` argument (`.error` = the write throws).
Because `updateControlCache` catches, logs and rethrows, engine operations
return the final in-memory state together with the `Except` outcome the
caller observes.
-/

/-- `InteractionControl`: per-thread mute/depth state. -/
structure InteractionControl where
  isMuted : Bool
  lastInteraction : Nat
  muteReason : Option String
  depth : Nat
  skipReason : Option String
deriving DecidableEq

/-- `InteractionConfig`: per-engine gating configuration.  Scores and
probabilities are modelled as rationals. -/
structure InteractionConfig where
  maxThreadDepth : Nat
  threadTimeout : Nat
  minEngagementScore : ℚ
  noResponseKeywords : List String
  skipProbability : ℚ

/-- The hard-coded default configuration of `TwitterInteractionControl`. -/
def defaultConfig : InteractionConfig :=
  { maxThreadDepth := 5
    threadTimeout := 48 * 60 * 60 * 1000
    minEngagementScore := 0
    noResponseKeywords :=
      ["blocked", "reported", "spam", "no_reply", "no_response",
       "no response", "NO RESPONSE", "NO_RESPONSE", "MUTE_THREAD",
       "FUNCTION", "function", "\x7b", "\x7d", "[", "\"name\"",
       "try again", "BTC", "btc", "bitcoin", "successfully posted", "tweet"]
    skipProbability := 0 }

/-- The fields of a `Tweet` that the engine consumes.  Optional string
fields model `undefined`; optional rationals model absent numeric metrics. -/
structure Tweet where
  id : Option String
  conversationId : Option String
  text : Option String
  likes : Option ℚ
  retweets : Option ℚ
  replies : Option ℚ
  bookmarkCount : Option ℚ
  views : Option ℚ
deriving DecidableEq

/-- JS string truthiness: `undefined` and `""` are falsy.  Returns the
value when truthy. -/
def jsStrTruthy (o : Option String) : Option String :=
  match o with
  | some s => if s = "" then none else some s
  | none => none

/-- JS `a || b` for an optional string with a string default. -/
def jsStrOr (a : Option String) (b : String) : String :=
  match jsStrTruthy a with
  | some s => s
  | none => b

/-- The thread id `tweet.conversationId || tweet.id` used by
`shouldInteract`; `none` when the resulting value is falsy. -/
def threadIdOf (t : Tweet) : Option String :=
  match jsStrTruthy t.conversationId with
  | some c => some c
  | none => jsStrTruthy t.id

/-- Containment of one character list in another as a contiguous segment. -/
def listInfixOf : List Char → List Char → Bool
  | sub, [] => sub.isEmpty
  | sub, c :: rest => sub.isPrefixOf (c :: rest) || listInfixOf sub rest

/-- JS `toLowerCase` (character-wise lowering of the basic latin range). -/
def strToLower (s : String) : String :=
  String.mk (s.toList.map Char.toLower)

/-- Whitespace stripped by JS `String.prototype.trim` (the ASCII cases). -/
def trimWsChar (c : Char) : Bool :=
  c == ' ' || c == '\t' || c == '\n' || c == '\r'

/-- JS `String.prototype.trim`: strip leading and trailing whitespace. -/
def strTrim (s : String) : String :=
  String.mk
    (((s.toList.dropWhile trimWsChar).reverse.dropWhile trimWsChar).reverse)

/-- JS `String.prototype.includes` (substring containment). -/
def jsIncludes (s sub : String) : Bool :=
  listInfixOf sub.toList s.toList

/-- In-memory engine state: the dedup set (insertion order) and the
thread-control map (insertion order). -/
structure EngineState where
  processedItems : List String
  controls : List (String × InteractionControl)
deriving DecidableEq

/-- The engine state right after construction (empty cache). -/
def emptyState : EngineState := ⟨[], []⟩

/-- JS `Map.prototype.get` on the insertion-ordered controls list. -/
def mapGet (m : List (String × InteractionControl)) (k : String) :
    Option InteractionControl :=
  (m.find? (fun p => p.1 == k)).map (fun p => p.2)

/-- JS `Map.prototype.set`: update the existing entry in place, else append. -/
def mapSet (m : List (String × InteractionControl)) (k : String)
    (v : InteractionControl) : List (String × InteractionControl) :=
  if m.any (fun p => p.1 == k) then
    m.map (fun p => if p.1 == k then (k, v) else p)
  else m ++ [(k, v)]

/-- The trim pass `updateControlCache` performs on the processed-items
array before persisting: keep only the latest 1000 entries. -/
def trimProcessed (l : List String) : List String :=
  if 1000 < l.length then l.drop (l.length - 1000) else l

/-- `updateControlCache`: trims the in-memory dedup set, then performs the
single cache write; a failing write is logged and rethrown, after the
in-memory trim has already happened. -/
def updateControlCache (s : EngineState) (setRes : Except Unit Unit) :
    EngineState × Except Unit Unit :=
  ({ s with processedItems := trimProcessed s.processedItems }, setRes)

/-- `muteThread`: upsert the thread control with `isMuted := true` and the
given reason, refresh `lastInteraction`, then write through the cache. -/
def muteThread (s : EngineState) (threadId reason : String) (now : Nat)
    (setRes : Except Unit Unit) : EngineState × Except Unit Unit :=
  let control := (mapGet s.controls threadId).getD ⟨false, now, none, 0, none⟩
  let updated : InteractionControl :=
    { control with
        isMuted := true
        muteReason := some reason
        lastInteraction := now }
  updateControlCache
    { s with controls := mapSet s.controls threadId updated } setRes

/-- `processInteraction`: upsert the thread control, incrementing `depth`
and refreshing `lastInteraction`, then write through the cache. -/
def processInteraction (s : EngineState) (threadId : String) (now : Nat)
    (setRes : Except Unit Unit) : EngineState × Except Unit Unit :=
  let control := (mapGet s.controls threadId).getD ⟨false, now, none, 0, none⟩
  let updated : InteractionControl :=
    { control with
        depth := control.depth + 1
        lastInteraction := now }
  updateControlCache
    { s with controls := mapSet s.controls threadId updated } setRes

/-- `markProcessed`: add the id to the in-memory dedup set (JS `Set.add`:
no effect on duplicates, no persistence, no trimming). -/
def markProcessed (s : EngineState) (id : String) : EngineState :=
  if s.processedItems.contains id then s
  else { s with processedItems := s.processedItems ++ [id] }

/-- `cleanupControls`: drop every control whose `lastInteraction` is idle
beyond `threadTimeout`; persist (write through) only if at least one entry
was removed.  Returns the new state, the outcome the caller observes, and
the `{cleaned, timestamp}` payload. -/
def cleanupControls (cfg : InteractionConfig) (s : EngineState) (now : Nat)
    (setRes : Except Unit Unit) :
    EngineState × Except Unit Unit × (Nat × Nat) :=
  let keep := s.controls.filter
    (fun p => decide (now - p.2.lastInteraction ≤ cfg.threadTimeout))
  let cleaned := s.controls.length - keep.length
  let s1 := { s with controls := keep }
  if 0 < cleaned then
    let out := updateControlCache s1 setRes
    (out.1, out.2, (cleaned, now))
  else (s1, .ok (), (cleaned, now))

/-- `calculateEngagementScore`: the fixed weighted engagement formula, with
each absent metric defaulting to 0. -/
def calculateEngagementScore (t : Tweet) : ℚ :=
  let likes := t.likes.getD 0
  let retweets := t.retweets.getD 0
  let replies := t.replies.getD 0
  let bookmarks := t.bookmarkCount.getD 0
  let views := t.views.getD 0
  (likes * 0.5 + retweets * 1.0 + replies * 0.8 + bookmarks * 0.3
    + views / 1000 * 0.1) / 100

/-- The result record of the gating functions. -/
structure InteractResult where
  interact : Bool
  reason : Option String
deriving DecidableEq

deriving instance DecidableEq for Except

/-- Whether `tweet.id` is already in the dedup set
(`processedItems.has(tweet.id!)`; `has(undefined)` is `false`). -/
def alreadyProcessed (s : EngineState) (t : Tweet) : Bool :=
  match t.id with
  | some i => s.processedItems.contains i
  | none => false

/-- JS template rendering of `control.muteReason` (an absent reason prints
as the string `undefined`). -/
def muteReasonText (c : InteractionControl) : String :=
  match c.muteReason with
  | some r => r
  | none => "undefined"

/-- Whether the stored control of `threadId` has `isMuted`. -/
def mutedIn (s : EngineState) (threadId : String) : Bool :=
  match mapGet s.controls threadId with
  | some c => c.isMuted
  | none => false

/-- The stored mute reason string interpolated by check 3. -/
def storedMuteReason (s : EngineState) (threadId : String) : String :=
  match mapGet s.controls threadId with
  | some c => muteReasonText c
  | none => "undefined"

/-- `control && control.depth > maxThreadDepth` of check 4. -/
def depthExceeded (cfg : InteractionConfig) (s : EngineState)
    (threadId : String) : Bool :=
  match mapGet s.controls threadId with
  | some c => decide (cfg.maxThreadDepth < c.depth)
  | none => false

/-- Check 5: some configured keyword occurs case-insensitively in
`tweet.text` (`false` when `text` is `undefined`). -/
def hasNoResponseKeyword (cfg : InteractionConfig) (t : Tweet) : Bool :=
  match t.text with
  | none => false
  | some txt =>
    cfg.noResponseKeywords.any
      (fun kw => jsIncludes (strToLower txt) (strToLower kw))

/-- `shouldInteract`: the seven-check gating cascade.  `rand` is the value
drawn by `Math.random()`; `setRes` is the outcome of the cache write that a
muting side effect performs (its failure propagates out of the call, hence
the `Except`-valued result). -/
def shouldInteract (cfg : InteractionConfig) (s : EngineState) (t : Tweet)
    (rand : ℚ) (now : Nat) (setRes : Except Unit Unit) :
    Except Unit InteractResult × EngineState :=
  match threadIdOf t with
  | none => (.ok ⟨false, some "No thread ID available"⟩, s)
  | some threadId =>
    if alreadyProcessed s t then (.ok ⟨false, some "Already processed"⟩, s)
    else if mutedIn s threadId then
      (.ok ⟨false, some ("Thread muted: " ++ storedMuteReason s threadId)⟩, s)
    else if depthExceeded cfg s threadId then
      let out := muteThread s threadId "Thread depth exceeded" now setRes
      (out.2.map (fun _ => ⟨false, some "Thread too deep"⟩), out.1)
    else if hasNoResponseKeyword cfg t then
      let out := muteThread s threadId "No response keyword detected" now setRes
      (out.2.map (fun _ => ⟨false, some "No response keyword detected"⟩),
       out.1)
    else if calculateEngagementScore t < cfg.minEngagementScore then
      (.ok ⟨false, some "Low engagement score"⟩, s)
    else if rand < cfg.skipProbability then
      (.ok ⟨false, some "Random skip"⟩, s)
    else (.ok ⟨true, none⟩, s)

/-!
### JSON values and `JSON.parse`

`detectControlResponse` calls the host `JSON.parse`.  Modelled from the
spec: the external JSON parser produces a JSON value (object, array,
string, number, boolean or null) or throws on malformed input; JS-level
truthiness and `typeof x === "object"` are modelled on the resulting value.
The recursive-descent parser below follows the JSON grammar (whitespace,
literals, strings with escapes, numbers with fraction/exponent, arrays,
objects); `none` models a thrown `SyntaxError`.
-/

/-- JSON values as JS sees them after `JSON.parse`. -/
inductive Json where
  | null
  | bool (b : Bool)
  | num (q : ℚ)
  | str (s : String)
  | arr (elems : List Json)
  | obj (fields : List (String × Json))

/-- JSON whitespace (space, tab, line feed, carriage return). -/
def jsonWsChar (c : Char) : Bool :=
  c == ' ' || c == '\t' || c == '\n' || c == '\r'

/-- Drop leading JSON whitespace. -/
def skipWs (cs : List Char) : List Char := cs.dropWhile jsonWsChar

/-- Value of a hexadecimal digit. -/
def hexVal (c : Char) : Option Nat :=
  if '0' ≤ c ∧ c ≤ '9' then some (c.toNat - 48)
  else if 'a' ≤ c ∧ c ≤ 'f' then some (c.toNat - 87)
  else if 'A' ≤ c ∧ c ≤ 'F' then some (c.toNat - 55)
  else none

/-- Value of a decimal digit. -/
def digitVal (c : Char) : Option Nat :=
  if '0' ≤ c ∧ c ≤ '9' then some (c.toNat - 48) else none

/-- Take a maximal run of decimal digits. -/
def takeDigits : List Char → List Nat × List Char
  | [] => ([], [])
  | c :: rest =>
    match digitVal c with
    | some d =>
      let out := takeDigits rest
      (d :: out.1, out.2)
    | none => ([], c :: rest)

/-- The natural number denoted by a digit run. -/
def natOfDigits (ds : List Nat) : Nat :=
  ds.foldl (fun acc d => 10 * acc + d) 0

/-- Parse the body of a JSON string after the opening quote, handling the
escape sequences of the JSON grammar. -/
def parseStrChars : Nat → List Char → Option (List Char × List Char)
  | 0, _ => none
  | _, [] => none
  | fuel + 1, c :: rest =>
    if c = '"' then some ([], rest)
    else if c = '\\' then
      match rest with
      | [] => none
      | e :: rest2 =>
        let esc : Option (Char × List Char) :=
          if e = '"' then some ('"', rest2)
          else if e = '\\' then some ('\\', rest2)
          else if e = '/' then some ('/', rest2)
          else if e = 'b' then some (Char.ofNat 8, rest2)
          else if e = 'f' then some (Char.ofNat 12, rest2)
          else if e = 'n' then some ('\n', rest2)
          else if e = 'r' then some ('\r', rest2)
          else if e = 't' then some ('\t', rest2)
          else if e = 'u' then
            match rest2 with
            | h1 :: h2 :: h3 :: h4 :: rest3 =>
              match hexVal h1, hexVal h2, hexVal h3, hexVal h4 with
              | some a, some b, some c2, some d =>
                some (Char.ofNat (((a * 16 + b) * 16 + c2) * 16 + d), rest3)
              | _, _, _, _ => none
            | _ => none
          else none
        match esc with
        | some (ch, rest3) =>
          match parseStrChars fuel rest3 with
          | some (out, rest4) => some (ch :: out, rest4)
          | none => none
        | none => none
    else
      match parseStrChars fuel rest with
      | some (out, rest2) => some (c :: out, rest2)
      | none => none

/-- Parse an optional exponent part applied to a mantissa. -/
def parseExpPart (m : ℚ) (cs : List Char) : Option (ℚ × List Char) :=
  let signed : (Int × List Char) :=
    match cs with
    | '+' :: rest => (1, rest)
    | '-' :: rest => (-1, rest)
    | _ => (1, cs)
  let ds := takeDigits signed.2
  if ds.1.isEmpty then none
  else some (m * (10 : ℚ) ^ (signed.1 * (natOfDigits ds.1 : Int)), ds.2)

/-- Parse a JSON number. -/
def parseNum (cs : List Char) : Option (ℚ × List Char) :=
  let signed : (Bool × List Char) :=
    match cs with
    | '-' :: rest => (true, rest)
    | _ => (false, cs)
  let ds := takeDigits signed.2
  if ds.1.isEmpty then none
  else
    let ip : ℚ := (natOfDigits ds.1 : ℚ)
    let withFrac : Option (ℚ × List Char) :=
      match ds.2 with
      | '.' :: rest =>
        let fs := takeDigits rest
        if fs.1.isEmpty then none
        else some (ip + (natOfDigits fs.1 : ℚ) / (10 : ℚ) ^ fs.1.length, fs.2)
      | _ => some (ip, ds.2)
    match withFrac with
    | none => none
    | some (m, cs2) =>
      let withExp : Option (ℚ × List Char) :=
        match cs2 with
        | 'e' :: rest => parseExpPart m rest
        | 'E' :: rest => parseExpPart m rest
        | _ => some (m, cs2)
      match withExp with
      | none => none
      | some (v, cs3) => some (if signed.1 then -v else v, cs3)

mutual

/-- Parse one JSON value (fuel bounds nesting depth). -/
def parseValue : Nat → List Char → Option (Json × List Char)
  | 0, _ => none
  | fuel + 1, cs0 =>
    match skipWs cs0 with
    | [] => none
    | 'n' :: 'u' :: 'l' :: 'l' :: rest => some (.null, rest)
    | 't' :: 'r' :: 'u' :: 'e' :: rest => some (.bool true, rest)
    | 'f' :: 'a' :: 'l' :: 's' :: 'e' :: rest => some (.bool false, rest)
    | '"' :: rest =>
      match parseStrChars (rest.length + 1) rest with
      | some (chars, rest2) => some (.str (String.mk chars), rest2)
      | none => none
    | '[' :: rest =>
      (match skipWs rest with
       | c :: rest2 =>
         if c = ']' then some (.arr [], rest2)
         else
           match parseElems fuel (c :: rest2) with
           | some (vs, rest3) => some (.arr vs, rest3)
           | none => none
       | [] => none)
    | c :: rest =>
      if c = Char.ofNat 123 then
        match skipWs rest with
        | c2 :: rest2 =>
          if c2 = Char.ofNat 125 then some (.obj [], rest2)
          else
            match parseMembers fuel (c2 :: rest2) with
            | some (ms, rest3) => some (.obj ms, rest3)
            | none => none
        | [] => none
      else
        match parseNum (c :: rest) with
        | some (q, rest2) => some (.num q, rest2)
        | none => none

/-- Parse a nonempty comma-separated list of array elements up to `]`. -/
def parseElems : Nat → List Char → Option (List Json × List Char)
  | 0, _ => none
  | fuel + 1, cs =>
    match parseValue fuel cs with
    | some (v, rest) =>
      (match skipWs rest with
       | ',' :: rest2 =>
         match parseElems fuel rest2 with
         | some (vs, rest3) => some (v :: vs, rest3)
         | none => none
       | c :: rest2 => if c = ']' then some ([v], rest2) else none
       | [] => none)
    | none => none

/-- Parse a nonempty comma-separated list of object members up to the
closing brace. -/
def parseMembers : Nat → List Char →
    Option (List (String × Json) × List Char)
  | 0, _ => none
  | fuel + 1, cs =>
    match skipWs cs with
    | '"' :: rest =>
      (match parseStrChars (rest.length + 1) rest with
       | some (keyChars, rest2) =>
         (match skipWs rest2 with
          | ':' :: rest3 =>
            (match parseValue fuel rest3 with
             | some (v, rest4) =>
               (match skipWs rest4 with
                | ',' :: rest5 =>
                  (match parseMembers fuel rest5 with
                   | some (ms, rest6) =>
                     some ((String.mk keyChars, v) :: ms, rest6)
                   | none => none)
                | c :: rest5 =>
                  if c = Char.ofNat 125 then
                    some ([(String.mk keyChars, v)], rest5)
                  else none
                | [] => none)
             | none => none)
          | _ => none)
       | none => none)
    | _ => none

end

/-- `JSON.parse`: parse a complete JSON document; trailing non-whitespace
is a syntax error. -/
def jsonParse (s : String) : Option Json :=
  match parseValue (s.length + 1) s.toList with
  | some (v, rest) => if (skipWs rest).isEmpty then some v else none
  | none => none

/-- The control directive detected in a model output. -/
inductive ControlType where
  | NO_RESPONSE
  | MUTE_THREAD
deriving DecidableEq

/-- The `DetectionResult` record of `detectControlResponse`. -/
structure DetectionResult where
  shouldPost : Bool
  controlType : Option ControlType
  reason : Option String
deriving DecidableEq

/-- JS truthiness of the looked-up `content` property (`undefined`, `null`,
`false`, `0` and `""` are falsy; objects and arrays are truthy). -/
def jsValFalsy (v : Option Json) : Bool :=
  match v with
  | none => true
  | some .null => true
  | some (.bool b) => !b
  | some (.num q) => decide (q = 0)
  | some (.str s) => decide (s = "")
  | some (.arr _) => false
  | some (.obj _) => false

/-- `jsonOutput && typeof jsonOutput === "object"`: holds for objects and
arrays (JSON `null` is falsy and primitives have other `typeof`s). -/
def jsTypeofObjectTruthy (j : Json) : Bool :=
  match j with
  | .obj _ => true
  | .arr _ => true
  | _ => false

/-- JS property lookup `jsonOutput.content` (with duplicate JSON keys the
last occurrence wins; `none` models `undefined`, also for arrays). -/
def jsContentField (j : Json) : Option Json :=
  match j with
  | .obj fields =>
    match fields.reverse.find? (fun p => p.1 == "content") with
    | some p => some p.2
    | none => none
  | _ => none

/-- The post-JSON phase of `detectControlResponse`: trim, test the exact
`NO_RESPONSE` / `MUTE_THREAD` directives, then scan the configured keyword
list case-insensitively, first match wins. -/
def controlKeywordScan (cfg : InteractionConfig) (text : String) :
    DetectionResult :=
  let normalized := strTrim text
  if normalized = "NO_RESPONSE" then
    ⟨false, some .NO_RESPONSE, some "Explicit NO_RESPONSE command"⟩
  else if normalized = "MUTE_THREAD" then
    ⟨false, some .MUTE_THREAD, some "Explicit MUTE_THREAD command"⟩
  else
    match cfg.noResponseKeywords.find?
        (fun kw => jsIncludes (strToLower normalized) (strToLower kw)) with
    | some kw =>
      ⟨false, some .NO_RESPONSE, some ("Contains no-response keyword: " ++ kw)⟩
    | none => ⟨true, none, none⟩

/-- `detectControlResponse`.  `none` models the one way the function can
throw: a parsed JSON object whose truthy `content` value is not a string
(calling `.trim()` on it raises a `TypeError`). -/
def detectControlResponse (cfg : InteractionConfig) (aiOutput : String) :
    Option DetectionResult :=
  if aiOutput = "" then some ⟨false, none, some "Empty output"⟩
  else
    match jsonParse aiOutput with
    | some j =>
      if jsTypeofObjectTruthy j then
        if jsValFalsy (jsContentField j) then
          some ⟨false, none, some "JSON response missing content field"⟩
        else
          match jsContentField j with
          | some (.str content) => some (controlKeywordScan cfg content)
          | _ => none
      else some (controlKeywordScan cfg aiOutput)
    | none => some (controlKeywordScan cfg aiOutput)

/-- `shouldInteractWithAIOutput`: run control detection on the output; on a
`MUTE_THREAD` directive mute `tweet.conversationId` when it is truthy (the
write-through failure of that mute propagates); any non-posting detection
returns immediately; otherwise delegate to `shouldInteract`. -/
def shouldInteractWithAIOutput (cfg : InteractionConfig) (s : EngineState)
    (t : Tweet) (aiOutput : String) (rand : ℚ) (now : Nat)
    (setRes : Except Unit Unit) : Except Unit InteractResult × EngineState :=
  match detectControlResponse cfg aiOutput with
  | none => (.error (), s)
  | some check =>
    if check.shouldPost then shouldInteract cfg s t rand now setRes
    else
      match check.controlType, jsStrTruthy t.conversationId with
      | some .MUTE_THREAD, some convId =>
        let out := muteThread s convId
          (jsStrOr check.reason "AI requested thread mute") now setRes
        (out.2.map (fun _ => ⟨false, check.reason⟩), out.1)
      | _, _ => (.ok ⟨false, check.reason⟩, s)

/-- One engine operation, as invoked by job handlers between gating calls. -/
inductive EngineOp where
  | mute (threadId reason : String) (now : Nat) (setRes : Except Unit Unit)
  | interaction (threadId : String) (now : Nat) (setRes : Except Unit Unit)
  | mark (id : String)
  | cleanup (now : Nat) (setRes : Except Unit Unit)
  | gate (t : Tweet) (rand : ℚ) (now : Nat) (setRes : Except Unit Unit)
  | gateAI (t : Tweet) (aiOutput : String) (rand : ℚ) (now : Nat)
      (setRes : Except Unit Unit)

/-- The in-memory state after one engine operation. -/
def applyOp (cfg : InteractionConfig) (s : EngineState) :
    EngineOp → EngineState
  | .mute tid r now res => (muteThread s tid r now res).1
  | .interaction tid now res => (processInteraction s tid now res).1
  | .mark i => markProcessed s i
  | .cleanup now res => (cleanupControls cfg s now res).1
  | .gate t rand now res => (shouldInteract cfg s t rand now res).2
  | .gateAI t out rand now res =>
      (shouldInteractWithAIOutput cfg s t out rand now res).2

/-- Run a sequence of engine operations. -/
def runOps (cfg : InteractionConfig) (s : EngineState) :
    List EngineOp → EngineState
  | [] => s
  | op :: rest => runOps cfg (applyOp cfg s op) rest

/-- An operation keeps thread `tid` alive through a cleanup: a
`cleanupControls` call must happen while `tid`'s control is within
`threadTimeout` of its `lastInteraction`; every other operation is
unrestricted. -/
def cleanupSafeFor (cfg : InteractionConfig) (tid : String)
    (s : EngineState) : EngineOp → Prop
  | .cleanup now _ =>
    ∀ c, mapGet s.controls tid = some c →
      now - c.lastInteraction ≤ cfg.threadTimeout
  | _ => True

/-- A trace of operations in which every cleanup happens while `tid` is
still fresh. -/
def safeTrace (cfg : InteractionConfig) (tid : String) :
    EngineState → List EngineOp → Prop
  | _, [] => True
  | s, op :: rest =>
    cleanupSafeFor cfg tid s op ∧ safeTrace cfg tid (applyOp cfg s op) rest

lemma find?_mapUpdate (m : List (String × InteractionControl)) (k : String)
    (v : InteractionControl) (ha : m.any (fun p => p.1 == k) = true) :
    (m.map (fun p => if p.1 == k then (k, v) else p)).find?
        (fun p => p.1 == k) = some (k, v) := by
  induction m with
  | nil => simp at ha
  | cons p rest ih =>
    by_cases hp : (p.1 == k) = true
    · simp only [List.map_cons, if_pos hp]
      exact List.find?_cons_of_pos _ (by simp)
    · simp only [List.map_cons, if_neg hp]
      rw [List.find?_cons_of_neg _ (by simpa using hp)]
      apply ih
      simp only [List.any_cons, hp] at ha
      simpa using ha

lemma find?_mapUpdate_other (m : List (String × InteractionControl))
    (k : String) (v : InteractionControl) (k2 : String) (hne : k2 ≠ k) :
    (m.map (fun p => if p.1 == k then (k, v) else p)).find?
        (fun p => p.1 == k2)
      = m.find? (fun p => p.1 == k2) := by
  induction m with
  | nil => rfl
  | cons p rest ih =>
    have hkk2 : (k == k2) = false := by
      simp only [beq_eq_false_iff_ne, ne_eq]
      exact fun h => hne h.symm
    by_cases hp : (p.1 == k) = true
    · have hp2 : (p.1 == k2) = false := by
        have hpk : p.1 = k := by simpa using hp
        rw [hpk]
        exact hkk2
      simp only [List.map_cons, if_pos hp, List.find?, hp2, hkk2]
      exact ih
    · cases hq : (p.1 == k2) with
      | true => simp only [List.map_cons, if_neg hp, List.find?, hq]
      | false =>
        simp only [List.map_cons, if_neg hp, List.find?, hq]
        exact ih

lemma mapGet_mapSet_self (m : List (String × InteractionControl))
    (k : String) (v : InteractionControl) :
    mapGet (mapSet m k v) k = some v := by
  unfold mapSet
  by_cases ha : m.any (fun p => p.1 == k) = true
  · rw [if_pos ha]
    unfold mapGet
    rw [find?_mapUpdate m k v ha]
    rfl
  · rw [if_neg ha]
    unfold mapGet
    have hn : m.find? (fun p => p.1 == k) = none :=
      List.find?_eq_none.mpr (fun x hx hpx =>
        ha (List.any_eq_true.mpr ⟨x, hx, hpx⟩))
    rw [List.find?_append, hn]
    simp

lemma mapGet_mapSet_other (m : List (String × InteractionControl))
    (k : String) (v : InteractionControl) (k2 : String) (hne : k2 ≠ k) :
    mapGet (mapSet m k v) k2 = mapGet m k2 := by
  unfold mapSet
  by_cases ha : m.any (fun p => p.1 == k) = true
  · rw [if_pos ha]
    unfold mapGet
    rw [find?_mapUpdate_other m k v k2 hne]
  · rw [if_neg ha]
    unfold mapGet
    rw [List.find?_append]
    cases hf : m.find? (fun p => p.1 == k2) with
    | some x => simp
    | none =>
      simp only [Option.none_or]
      rw [List.find?_cons_of_neg _ (by simpa using fun h => hne h.symm)]
      simp

lemma find?_filter_of_found {α : Type} (q p : α → Bool) (l : List α) (x : α)
    (hf : l.find? q = some x) (hp : p x = true) :
    (l.filter p).find? q = some x := by
  induction l with
  | nil => simp at hf
  | cons a rest ih =>
    by_cases hq : q a = true
    · rw [List.find?_cons_of_pos _ hq] at hf
      injection hf with h
      subst h
      rw [List.filter_cons_of_pos hp]
      exact List.find?_cons_of_pos _ hq
    · rw [List.find?_cons_of_neg _ hq] at hf
      by_cases hpa : p a = true
      · rw [List.filter_cons_of_pos hpa, List.find?_cons_of_neg _ hq]
        exact ih hf
      · rw [List.filter_cons_of_neg hpa]
        exact ih hf

lemma muteThread_controls (s : EngineState) (tid r : String) (now : Nat)
    (e : Except Unit Unit) :
    (muteThread s tid r now e).1.controls
      = mapSet s.controls tid
          { ((mapGet s.controls tid).getD ⟨false, now, none, 0, none⟩) with
              isMuted := true
              muteReason := some r
              lastInteraction := now } := rfl

lemma mutedIn_muteThread_self (s : EngineState) (tid r : String) (now : Nat)
    (e : Except Unit Unit) :
    mutedIn (muteThread s tid r now e).1 tid = true := by
  simp [mutedIn, muteThread_controls, mapGet_mapSet_self]

lemma mutedIn_muteThread_mono (s : EngineState) (tid tid2 r : String)
    (now : Nat) (e : Except Unit Unit) (h : mutedIn s tid = true) :
    mutedIn (muteThread s tid2 r now e).1 tid = true := by
  by_cases heq : tid = tid2
  · subst heq
    exact mutedIn_muteThread_self s tid r now e
  · simpa [mutedIn, muteThread_controls, mapGet_mapSet_other _ _ _ _ heq]
      using h

lemma processInteraction_controls (s : EngineState) (tid : String)
    (now : Nat) (e : Except Unit Unit) :
    (processInteraction s tid now e).1.controls
      = mapSet s.controls tid
          { ((mapGet s.controls tid).getD ⟨false, now, none, 0, none⟩) with
              depth :=
                ((mapGet s.controls tid).getD ⟨false, now, none, 0, none⟩).depth
                  + 1
              lastInteraction := now } := rfl

lemma mutedIn_processInteraction_mono (s : EngineState) (tid tid2 : String)
    (now : Nat) (e : Except Unit Unit) (h : mutedIn s tid = true) :
    mutedIn (processInteraction s tid2 now e).1 tid = true := by
  by_cases heq : tid = tid2
  · subst heq
    cases hg : mapGet s.controls tid with
    | none => simp [mutedIn, hg] at h
    | some c =>
      have hc : c.isMuted = true := by simpa [mutedIn, hg] using h
      simp [mutedIn, processInteraction_controls, hg, mapGet_mapSet_self, hc]
  · simpa [mutedIn, processInteraction_controls,
      mapGet_mapSet_other _ _ _ _ heq] using h

lemma markProcessed_controls (s : EngineState) (i : String) :
    (markProcessed s i).controls = s.controls := by
  unfold markProcessed
  split <;> rfl

lemma cleanupControls_controls (cfg : InteractionConfig) (s : EngineState)
    (now : Nat) (e : Except Unit Unit) :
    (cleanupControls cfg s now e).1.controls
      = s.controls.filter
          (fun p => decide (now - p.2.lastInteraction ≤ cfg.threadTimeout)) := by
  simp only [cleanupControls]
  split <;> rfl

lemma mutedIn_cleanup_mono (cfg : InteractionConfig) (s : EngineState)
    (tid : String) (now : Nat) (e : Except Unit Unit)
    (h : mutedIn s tid = true)
    (hsafe : ∀ c, mapGet s.controls tid = some c →
      now - c.lastInteraction ≤ cfg.threadTimeout) :
    mutedIn (cleanupControls cfg s now e).1 tid = true := by
  cases hg : mapGet s.controls tid with
  | none => simp [mutedIn, hg] at h
  | some c =>
    have hc : c.isMuted = true := by simpa [mutedIn, hg] using h
    obtain ⟨pr, hpr, hpr2⟩ : ∃ pr,
        s.controls.find? (fun p => p.1 == tid) = some pr ∧ pr.2 = c := by
      unfold mapGet at hg
      cases hf : s.controls.find? (fun p => p.1 == tid) with
      | none => rw [hf] at hg; simp at hg
      | some pr =>
        rw [hf] at hg
        exact ⟨pr, rfl, by simpa using hg⟩
    have hkeep : (fun p => decide (now - (p : String × InteractionControl).2.lastInteraction
        ≤ cfg.threadTimeout)) pr = true := by
      simp only [decide_eq_true_eq]
      rw [hpr2]
      exact hsafe c hg
    have hfind := find?_filter_of_found (fun p => p.1 == tid)
      (fun p => decide (now - p.2.lastInteraction ≤ cfg.threadTimeout))
      s.controls pr hpr hkeep
    unfold mutedIn mapGet
    rw [cleanupControls_controls, hfind]
    simp [hpr2, hc]

lemma shouldInteract_state_shape (cfg : InteractionConfig) (s : EngineState)
    (t : Tweet) (rand : ℚ) (now : Nat) (e : Except Unit Unit) :
    (shouldInteract cfg s t rand now e).2 = s
    ∨ ∃ tid r2, threadIdOf t = some tid
        ∧ (shouldInteract cfg s t rand now e).2
            = (muteThread s tid r2 now e).1 := by
  unfold shouldInteract
  cases h : threadIdOf t with
  | none => exact Or.inl (by trivial)
  | some tid =>
    by_cases h1 : alreadyProcessed s t = true
    · simp only [if_pos h1]
      exact Or.inl (by trivial)
    · simp only [if_neg h1]
      by_cases h2 : mutedIn s tid = true
      · simp only [if_pos h2]
        exact Or.inl (by trivial)
      · simp only [if_neg h2]
        by_cases h3 : depthExceeded cfg s tid = true
        · simp only [if_pos h3]
          exact Or.inr ⟨tid, "Thread depth exceeded", rfl, rfl⟩
        · simp only [if_neg h3]
          by_cases h4 : hasNoResponseKeyword cfg t = true
          · simp only [if_pos h4]
            exact Or.inr ⟨tid, "No response keyword detected", rfl, rfl⟩
          · simp only [if_neg h4]
            by_cases h5 : calculateEngagementScore t < cfg.minEngagementScore
            · simp only [if_pos h5]
              exact Or.inl (by trivial)
            · simp only [if_neg h5]
              by_cases h6 : rand < cfg.skipProbability
              · simp only [if_pos h6]
                exact Or.inl (by trivial)
              · simp only [if_neg h6]
                exact Or.inl (by trivial)

lemma mutedIn_shouldInteract_mono (cfg : InteractionConfig)
    (s : EngineState) (t : Tweet) (rand : ℚ) (now : Nat)
    (e : Except Unit Unit) (tid : String) (h : mutedIn s tid = true) :
    mutedIn (shouldInteract cfg s t rand now e).2 tid = true := by
  rcases shouldInteract_state_shape cfg s t rand now e with heq | ⟨t2, r2, _, heq⟩
  · rw [heq]; exact h
  · rw [heq]; exact mutedIn_muteThread_mono s tid t2 r2 now e h

lemma mutedIn_gateAI_mono (cfg : InteractionConfig) (s : EngineState)
    (t : Tweet) (aiOutput : String) (rand : ℚ) (now : Nat)
    (e : Except Unit Unit) (tid : String) (h : mutedIn s tid = true) :
    mutedIn (shouldInteractWithAIOutput cfg s t aiOutput rand now e).2 tid
      = true := by
  unfold shouldInteractWithAIOutput
  cases hd : detectControlResponse cfg aiOutput with
  | none => exact h
  | some check =>
    by_cases hs : check.shouldPost = true
    · simp only [if_pos hs]
      exact mutedIn_shouldInteract_mono cfg s t rand now e tid h
    · simp only [if_neg hs]
      cases hct : check.controlType with
      | none => exact h
      | some ct =>
        cases ct with
        | NO_RESPONSE => exact h
        | MUTE_THREAD =>
          cases hcv : jsStrTruthy t.conversationId with
          | none => exact h
          | some convId =>
            exact mutedIn_muteThread_mono s tid convId _ now e h

lemma mutedIn_applyOp (cfg : InteractionConfig) (s : EngineState)
    (tid : String) (op : EngineOp) (h : mutedIn s tid = true)
    (hsafe : cleanupSafeFor cfg tid s op) :
    mutedIn (applyOp cfg s op) tid = true := by
  cases op with
  | mute tid2 r now e => exact mutedIn_muteThread_mono s tid tid2 r now e h
  | interaction tid2 now e =>
    exact mutedIn_processInteraction_mono s tid tid2 now e h
  | mark i => simpa [mutedIn, applyOp, markProcessed_controls] using h
  | cleanup now e => exact mutedIn_cleanup_mono cfg s tid now e h hsafe
  | gate t rand now e => exact mutedIn_shouldInteract_mono cfg s t rand now e tid h
  | gateAI t out rand now e =>
    exact mutedIn_gateAI_mono cfg s t out rand now e tid h

lemma mutedIn_runOps (cfg : InteractionConfig) (tid : String)
    (ops : List EngineOp) :
    ∀ s : EngineState, mutedIn s tid = true → safeTrace cfg tid s ops →
      mutedIn (runOps cfg s ops) tid = true := by
  induction ops with
  | nil => exact fun s h _ => h
  | cons op rest ih =>
    intro s h hsafe
    exact ih (applyOp cfg s op)
      (mutedIn_applyOp cfg s tid op h hsafe.1) hsafe.2

lemma shouldInteract_false_of_muted (cfg : InteractionConfig)
    (s : EngineState) (t : Tweet) (rand : ℚ) (now : Nat)
    (e : Except Unit Unit) (tid : String) (h : mutedIn s tid = true)
    (ht : threadIdOf t = some tid) :
    ∃ why, (shouldInteract cfg s t rand now e).1 = .ok ⟨false, why⟩ := by
  unfold shouldInteract
  rw [ht]
  by_cases h1 : alreadyProcessed s t = true
  · exact ⟨some "Already processed", by simp [h1]⟩
  · exact ⟨some ("Thread muted: " ++ storedMuteReason s tid),
      by simp [h1, h]⟩

/-- Depth stored for a thread (0 when no control entry exists). -/
def depthOf (s : EngineState) (tid : String) : Nat :=
  match mapGet s.controls tid with
  | some c => c.depth
  | none => 0

lemma trimProcessed_eq_drop (l : List String) :
    trimProcessed l = l.drop (l.length - 1000) := by
  unfold trimProcessed
  split
  · rfl
  · next h =>
    have h0 : l.length - 1000 = 0 := by omega
    rw [h0, List.drop_zero]

lemma shouldInteract_case_noThread (cfg : InteractionConfig)
    (s : EngineState) (t : Tweet) (rand : ℚ) (now : Nat)
    (e : Except Unit Unit) (h : threadIdOf t = none) :
    shouldInteract cfg s t rand now e
      = (.ok ⟨false, some "No thread ID available"⟩, s) := by
  unfold shouldInteract
  rw [h]

lemma shouldInteract_case_processed (cfg : InteractionConfig)
    (s : EngineState) (t : Tweet) (rand : ℚ) (now : Nat)
    (e : Except Unit Unit) (tid : String) (h : threadIdOf t = some tid)
    (h1 : alreadyProcessed s t = true) :
    shouldInteract cfg s t rand now e
      = (.ok ⟨false, some "Already processed"⟩, s) := by
  unfold shouldInteract
  rw [h]
  simp [h1]

lemma shouldInteract_case_muted (cfg : InteractionConfig) (s : EngineState)
    (t : Tweet) (rand : ℚ) (now : Nat) (e : Except Unit Unit) (tid : String)
    (h : threadIdOf t = some tid) (h1 : alreadyProcessed s t = false)
    (h2 : mutedIn s tid = true) :
    shouldInteract cfg s t rand now e
      = (.ok ⟨false, some ("Thread muted: " ++ storedMuteReason s tid)⟩, s)
    := by
  unfold shouldInteract
  rw [h]
  simp [h1, h2]

lemma shouldInteract_case_depth (cfg : InteractionConfig) (s : EngineState)
    (t : Tweet) (rand : ℚ) (now : Nat) (e : Except Unit Unit) (tid : String)
    (h : threadIdOf t = some tid) (h1 : alreadyProcessed s t = false)
    (h2 : mutedIn s tid = false) (h3 : depthExceeded cfg s tid = true) :
    shouldInteract cfg s t rand now e
      = ((muteThread s tid "Thread depth exceeded" now e).2.map
           (fun _ => ⟨false, some "Thread too deep"⟩),
         (muteThread s tid "Thread depth exceeded" now e).1) := by
  unfold shouldInteract
  rw [h]
  simp [h1, h2, h3]

lemma shouldInteract_case_keyword (cfg : InteractionConfig) (s : EngineState)
    (t : Tweet) (rand : ℚ) (now : Nat) (e : Except Unit Unit) (tid : String)
    (h : threadIdOf t = some tid) (h1 : alreadyProcessed s t = false)
    (h2 : mutedIn s tid = false) (h3 : depthExceeded cfg s tid = false)
    (h4 : hasNoResponseKeyword cfg t = true) :
    shouldInteract cfg s t rand now e
      = ((muteThread s tid "No response keyword detected" now e).2.map
           (fun _ => ⟨false, some "No response keyword detected"⟩),
         (muteThread s tid "No response keyword detected" now e).1) := by
  unfold shouldInteract
  rw [h]
  simp [h1, h2, h3, h4]

lemma shouldInteract_case_lowScore (cfg : InteractionConfig)
    (s : EngineState) (t : Tweet) (rand : ℚ) (now : Nat)
    (e : Except Unit Unit) (tid : String) (h : threadIdOf t = some tid)
    (h1 : alreadyProcessed s t = false) (h2 : mutedIn s tid = false)
    (h3 : depthExceeded cfg s tid = false)
    (h4 : hasNoResponseKeyword cfg t = false)
    (h5 : calculateEngagementScore t < cfg.minEngagementScore) :
    shouldInteract cfg s t rand now e
      = (.ok ⟨false, some "Low engagement score"⟩, s) := by
  unfold shouldInteract
  rw [h]
  simp [h1, h2, h3, h4, h5]

lemma shouldInteract_case_randomSkip (cfg : InteractionConfig)
    (s : EngineState) (t : Tweet) (rand : ℚ) (now : Nat)
    (e : Except Unit Unit) (tid : String) (h : threadIdOf t = some tid)
    (h1 : alreadyProcessed s t = false) (h2 : mutedIn s tid = false)
    (h3 : depthExceeded cfg s tid = false)
    (h4 : hasNoResponseKeyword cfg t = false)
    (h5 : ¬ calculateEngagementScore t < cfg.minEngagementScore)
    (h6 : rand < cfg.skipProbability) :
    shouldInteract cfg s t rand now e
      = (.ok ⟨false, some "Random skip"⟩, s) := by
  unfold shouldInteract
  rw [h]
  simp [h1, h2, h3, h4, h5, h6]

lemma shouldInteract_case_allPass (cfg : InteractionConfig)
    (s : EngineState) (t : Tweet) (rand : ℚ) (now : Nat)
    (e : Except Unit Unit) (tid : String) (h : threadIdOf t = some tid)
    (h1 : alreadyProcessed s t = false) (h2 : mutedIn s tid = false)
    (h3 : depthExceeded cfg s tid = false)
    (h4 : hasNoResponseKeyword cfg t = false)
    (h5 : ¬ calculateEngagementScore t < cfg.minEngagementScore)
    (h6 : ¬ rand < cfg.skipProbability) :
    shouldInteract cfg s t rand now e = (.ok ⟨true, none⟩, s) := by
  unfold shouldInteract
  rw [h]
  simp [h1, h2, h3, h4, h5, h6]

/-- C1 (amended): after `muteThread(t, r)`, the thread stays muted and
`shouldInteract` rejects every candidate of that thread across any sequence
of engine operations, provided every `cleanupControls` call in the sequence
runs while the thread's `lastInteraction` is within `threadTimeout` — an
expired cleanup deletes the whole control entry, mute flag included. -/
theorem mute_terminal_while_fresh (cfg : InteractionConfig) (s : EngineState)
    (tid reason : String) (now0 : Nat) (e0 : Except Unit Unit)
    (ops : List EngineOp)
    (hsafe : safeTrace cfg tid ((muteThread s tid reason now0 e0).1) ops) :
    mutedIn (runOps cfg ((muteThread s tid reason now0 e0).1) ops) tid = true
    ∧ (∀ t rand now e, threadIdOf t = some tid →
        ∃ why, (shouldInteract cfg
            (runOps cfg ((muteThread s tid reason now0 e0).1) ops)
            t rand now e).1 = .ok ⟨false, why⟩) := by
  have hm := mutedIn_runOps cfg tid ops ((muteThread s tid reason now0 e0).1)
    (mutedIn_muteThread_self s tid reason now0 e0) hsafe
  exact ⟨hm, fun t rand now e ht =>
    shouldInteract_false_of_muted cfg _ t rand now e tid hm ht⟩

theorem mute_terminal_while_fresh_witness :
    mutedIn (runOps defaultConfig
      (muteThread emptyState "t1" "m" 0 (.ok ())).1
      [.mark "z", .cleanup 5 (.ok ())]) "t1" = true := by
  have hsafe : safeTrace defaultConfig "t1"
      ((muteThread emptyState "t1" "m" 0 (.ok ())).1)
      [.mark "z", .cleanup 5 (.ok ())] := by
    refine ⟨trivial, ?_, trivial⟩
    intro c hc
    have hc2 : some (⟨true, 0, some "m", 0, none⟩ : InteractionControl)
        = some c := hc
    cases hc2
    decide
  exact (mute_terminal_while_fresh defaultConfig emptyState "t1" "m" 0
    (.ok ()) [.mark "z", .cleanup 5 (.ok ())] hsafe).1

/-- C1 counterexample: `cleanupControls`, run once the muted thread has been
idle beyond `threadTimeout`, deletes the control entry and with it the mute
flag; a later `shouldInteract` for a fresh candidate of the same thread
returns `interact = true`. -/
theorem mute_not_terminal_after_expired_cleanup :
    mutedIn (muteThread emptyState "t1" "m" 0 (.ok ())).1 "t1" = true
    ∧ (shouldInteract defaultConfig
        (cleanupControls defaultConfig
          (muteThread emptyState "t1" "m" 0 (.ok ())).1
          172800001 (.ok ())).1
        ⟨some "tw2", some "t1", some "hello", none, none, none, none, none⟩
        (1/2) 172800002 (.ok ())).1 = .ok ⟨true, none⟩ := by
  refine ⟨rfl, ?_⟩
  rw [shouldInteract_case_allPass defaultConfig _ _ (1/2) 172800002 (.ok ())
    "t1" (by decide) (by decide) (by decide) (by decide) (by decide) ?_ ?_]
  · have hscore : calculateEngagementScore
        ⟨some "tw2", some "t1", some "hello", none, none, none, none, none⟩
        = 0 := by
      simp [calculateEngagementScore]
    rw [hscore]
    norm_num [defaultConfig]
  · norm_num [defaultConfig]

/-- C6 (amended): a failing cache write during a write-through mutation
leaves the updated in-memory state in place, but `updateControlCache` logs
and rethrows, so the failure does propagate to the caller of `muteThread`,
`processInteraction`, and of `cleanupControls` whenever the latter persists
(at least one entry removed). -/
theorem persistence_failure_propagates (cfg : InteractionConfig)
    (s : EngineState) (tid r : String) (now : Nat) (e : Except Unit Unit) :
    ((muteThread s tid r now e).2 = e)
    ∧ (mutedIn (muteThread s tid r now e).1 tid = true)
    ∧ ((processInteraction s tid now e).2 = e)
    ∧ (depthOf (processInteraction s tid now e).1 tid = depthOf s tid + 1)
    ∧ (0 < (cleanupControls cfg s now e).2.2.1 →
        (cleanupControls cfg s now e).2.1 = e) := by
  refine ⟨rfl, mutedIn_muteThread_self s tid r now e, rfl, ?_, ?_⟩
  · cases hg : mapGet s.controls tid with
    | none =>
      simp [depthOf, processInteraction_controls, hg, mapGet_mapSet_self]
    | some c =>
      simp [depthOf, processInteraction_controls, hg, mapGet_mapSet_self]
  · by_cases hc : 0 < s.controls.length - (s.controls.filter
        (fun p => decide (now - p.2.lastInteraction
          ≤ cfg.threadTimeout))).length
    · intro _
      simp only [cleanupControls, if_pos hc]
      rfl
    · intro h
      exfalso
      simp only [cleanupControls, if_neg hc] at h
      exact hc h

theorem persistence_failure_propagates_witness :
    (cleanupControls defaultConfig
      (muteThread emptyState "t" "r" 0 (.ok ())).1
      172800001 (.error ())).2.1 = .error () :=
  (persistence_failure_propagates defaultConfig
    (muteThread emptyState "t" "r" 0 (.ok ())).1 "t" "r" 172800001
    (.error ())).2.2.2.2 (by decide)

/-- C6 counterexample: a failing write inside `muteThread` is rethrown to
the caller (the claim said it is absorbed), while the in-memory mute is
already applied. -/
theorem muteThread_propagates_write_failure :
    (muteThread emptyState "t" "r" 0 (.error ())).2 = .error ()
    ∧ mutedIn (muteThread emptyState "t" "r" 0 (.error ())).1 "t" = true :=
  ⟨rfl, rfl⟩

/-- C7: every trim pass keeps at most 1000 dedup ids, namely the most
recently inserted ones in insertion order: trimming always equals dropping
all but the last 1000 entries, `updateControlCache` applies exactly this
trim to the in-memory set, and for ids `i1..i1050` inserted in order the
trimmed set is `[i51..i1050]`. -/
theorem trimProcessed_spec :
    (∀ l : List String, (trimProcessed l).length ≤ 1000)
    ∧ (∀ l : List String, trimProcessed l = l.drop (l.length - 1000))
    ∧ (∀ (s : EngineState) (e : Except Unit Unit),
        ((updateControlCache s e).1).processedItems
          = trimProcessed s.processedItems)
    ∧ (trimProcessed ((List.range 1050).map (fun n => "i" ++ toString (n + 1)))
        = ((List.range 1050).map (fun n => "i" ++ toString (n + 1))).drop 50)
    ∧ (((List.range 1050).map (fun n => "i" ++ toString (n + 1))).drop 50
        = (List.range 1000).map (fun n => "i" ++ toString (n + 51))) := by
  refine ⟨?_, trimProcessed_eq_drop, fun s e => rfl, ?_, ?_⟩
  · intro l
    rw [trimProcessed_eq_drop l, List.length_drop]
    omega
  · rw [trimProcessed_eq_drop]
    have hlen : ((List.range 1050).map
        (fun n => "i" ++ toString (n + 1))).length = 1050 := by
      simp
    rw [hlen]
  · have h1050 : (1050 : ℕ) = 50 + 1000 := by norm_num
    rw [h1050, List.range_add, List.map_append]
    rw [List.drop_left' (by simp), List.map_map]
    apply List.map_congr_left
    intro a _
    show "i" ++ toString (50 + a + 1) = "i" ++ toString (a + 51)
    have h5 : 50 + a + 1 = a + 51 := by omega
    rw [h5]

/-- C4: `shouldInteract` runs its seven checks in the fixed order (no
thread id, dedup, muted, depth, keyword, engagement, random skip); the
first failing check determines the returned reason; checks 4 and 5 mute
the thread as a side effect before rejecting (their cache write-through
outcome is what the caller observes), and checks 1-3, 6 and 7 leave the
engine state untouched. -/
theorem shouldInteract_check_order (cfg : InteractionConfig)
    (s : EngineState) (t : Tweet) (rand : ℚ) (now : Nat)
    (e : Except Unit Unit) (tid : String) :
    (threadIdOf t = none →
      shouldInteract cfg s t rand now e
        = (.ok ⟨false, some "No thread ID available"⟩, s))
    ∧ (threadIdOf t = some tid → alreadyProcessed s t = true →
      shouldInteract cfg s t rand now e
        = (.ok ⟨false, some "Already processed"⟩, s))
    ∧ (threadIdOf t = some tid → alreadyProcessed s t = false →
      mutedIn s tid = true →
      shouldInteract cfg s t rand now e
        = (.ok ⟨false, some ("Thread muted: " ++ storedMuteReason s tid)⟩, s))
    ∧ (threadIdOf t = some tid → alreadyProcessed s t = false →
      mutedIn s tid = false → depthExceeded cfg s tid = true →
      shouldInteract cfg s t rand now e
        = ((muteThread s tid "Thread depth exceeded" now e).2.map
             (fun _ => ⟨false, some "Thread too deep"⟩),
           (muteThread s tid "Thread depth exceeded" now e).1))
    ∧ (threadIdOf t = some tid → alreadyProcessed s t = false →
      mutedIn s tid = false → depthExceeded cfg s tid = false →
      hasNoResponseKeyword cfg t = true →
      shouldInteract cfg s t rand now e
        = ((muteThread s tid "No response keyword detected" now e).2.map
             (fun _ => ⟨false, some "No response keyword detected"⟩),
           (muteThread s tid "No response keyword detected" now e).1))
    ∧ (threadIdOf t = some tid → alreadyProcessed s t = false →
      mutedIn s tid = false → depthExceeded cfg s tid = false →
      hasNoResponseKeyword cfg t = false →
      calculateEngagementScore t < cfg.minEngagementScore →
      shouldInteract cfg s t rand now e
        = (.ok ⟨false, some "Low engagement score"⟩, s))
    ∧ (threadIdOf t = some tid → alreadyProcessed s t = false →
      mutedIn s tid = false → depthExceeded cfg s tid = false →
      hasNoResponseKeyword cfg t = false →
      ¬ calculateEngagementScore t < cfg.minEngagementScore →
      rand < cfg.skipProbability →
      shouldInteract cfg s t rand now e
        = (.ok ⟨false, some "Random skip"⟩, s))
    ∧ (threadIdOf t = some tid → alreadyProcessed s t = false →
      mutedIn s tid = false → depthExceeded cfg s tid = false →
      hasNoResponseKeyword cfg t = false →
      ¬ calculateEngagementScore t < cfg.minEngagementScore →
      ¬ rand < cfg.skipProbability →
      shouldInteract cfg s t rand now e = (.ok ⟨true, none⟩, s)) := by
  refine ⟨?_, ?_, ?_, ?_, ?_, ?_, ?_, ?_⟩
  · exact shouldInteract_case_noThread cfg s t rand now e
  · exact shouldInteract_case_processed cfg s t rand now e tid
  · exact shouldInteract_case_muted cfg s t rand now e tid
  · exact shouldInteract_case_depth cfg s t rand now e tid
  · exact shouldInteract_case_keyword cfg s t rand now e tid
  · exact shouldInteract_case_lowScore cfg s t rand now e tid
  · exact shouldInteract_case_randomSkip cfg s t rand now e tid
  · exact shouldInteract_case_allPass cfg s t rand now e tid

theorem shouldInteract_check_order_witness :
    shouldInteract defaultConfig emptyState
      ⟨some "x", none, some "this is spam", none, none, none, none, none⟩
      0 7 (.ok ())
      = ((muteThread emptyState "x" "No response keyword detected" 7
            (.ok ())).2.map
           (fun _ => ⟨false, some "No response keyword detected"⟩),
         (muteThread emptyState "x" "No response keyword detected" 7
            (.ok ())).1) :=
  (shouldInteract_check_order defaultConfig emptyState
      ⟨some "x", none, some "this is spam", none, none, none, none, none⟩
      0 7 (.ok ()) "x").2.2.2.2.1
    (by decide) (by decide) (by decide) (by decide) (by decide)

/-- `engagementScoreSpec`: the spec's engagement formula over explicit metric
values, for comparison with the code's `calculateEngagementScore`. -/
def engagementScoreSpec (likes retweets replies bookmarks views : ℚ) : ℚ :=
  (likes * 0.5 + retweets * 1.0 + replies * 0.8 + bookmarks * 0.3
    + views / 1000 * 0.1) / 100

/-- C8: `calculateEngagementScore` equals the spec formula with absent
metrics defaulting to 0, is strictly increasing in each metric with the
others fixed, and evaluates to 1.59 on the scenario metrics, which passes
an engagement threshold of 0.6. -/
theorem calculateEngagementScore_spec :
    (∀ t : Tweet, calculateEngagementScore t
        = engagementScoreSpec (t.likes.getD 0) (t.retweets.getD 0)
            (t.replies.getD 0) (t.bookmarkCount.getD 0) (t.views.getD 0))
    ∧ (∀ (t : Tweet) (a b : ℚ), a < b →
        calculateEngagementScore { t with likes := some a }
          < calculateEngagementScore { t with likes := some b })
    ∧ (∀ (t : Tweet) (a b : ℚ), a < b →
        calculateEngagementScore { t with retweets := some a }
          < calculateEngagementScore { t with retweets := some b })
    ∧ (∀ (t : Tweet) (a b : ℚ), a < b →
        calculateEngagementScore { t with replies := some a }
          < calculateEngagementScore { t with replies := some b })
    ∧ (∀ (t : Tweet) (a b : ℚ), a < b →
        calculateEngagementScore { t with bookmarkCount := some a }
          < calculateEngagementScore { t with bookmarkCount := some b })
    ∧ (∀ (t : Tweet) (a b : ℚ), a < b →
        calculateEngagementScore { t with views := some a }
          < calculateEngagementScore { t with views := some b })
    ∧ (calculateEngagementScore
        ⟨none, none, none, some 200, some 50, some 10, some 0, some 10000⟩
          = 159 / 100)
    ∧ ¬ (calculateEngagementScore
        ⟨none, none, none, some 200, some 50, some 10, some 0, some 10000⟩
          < 6 / 10) := by
  refine ⟨fun t => rfl, ?_, ?_, ?_, ?_, ?_, ?_, ?_⟩
  · intro t a b hab
    simp only [calculateEngagementScore, Option.getD_some]
    linarith
  · intro t a b hab
    simp only [calculateEngagementScore, Option.getD_some]
    linarith
  · intro t a b hab
    simp only [calculateEngagementScore, Option.getD_some]
    linarith
  · intro t a b hab
    simp only [calculateEngagementScore, Option.getD_some]
    linarith
  · intro t a b hab
    simp only [calculateEngagementScore, Option.getD_some]
    linarith
  · simp only [calculateEngagementScore]
    norm_num
  · simp only [calculateEngagementScore]
    norm_num

theorem calculateEngagementScore_spec_witness :
    calculateEngagementScore
        ⟨none, none, none, some 0, none, none, none, none⟩
      < calculateEngagementScore
        ⟨none, none, none, some 1, none, none, none, none⟩ :=
  calculateEngagementScore_spec.2.1
    ⟨none, none, none, none, none, none, none, none⟩ 0 1 (by norm_num)

/-- C9 (amended): on a detected MUTE_THREAD directive the thread muted is
`tweet.conversationId`, and only when that field itself is truthy — a
candidate whose thread id only derives from the `id` fallback is not
muted; any non-posting detection returns `{interact:false, reason}`
immediately; a passing detection delegates to `shouldInteract`. -/
theorem shouldInteractWithAIOutput_spec (cfg : InteractionConfig)
    (s : EngineState) (t : Tweet) (aiOutput : String) (rand : ℚ) (now : Nat)
    (e : Except Unit Unit) :
    (∀ check convId, detectControlResponse cfg aiOutput = some check →
        check.shouldPost = false →
        check.controlType = some .MUTE_THREAD →
        jsStrTruthy t.conversationId = some convId →
        shouldInteractWithAIOutput cfg s t aiOutput rand now e
          = ((muteThread s convId
                (jsStrOr check.reason "AI requested thread mute") now e).2.map
               (fun _ => ⟨false, check.reason⟩),
             (muteThread s convId
                (jsStrOr check.reason "AI requested thread mute") now e).1)
        ∧ mutedIn
            (shouldInteractWithAIOutput cfg s t aiOutput rand now e).2 convId
          = true)
    ∧ (∀ check, detectControlResponse cfg aiOutput = some check →
        check.shouldPost = false →
        (check.controlType ≠ some .MUTE_THREAD
          ∨ jsStrTruthy t.conversationId = none) →
        shouldInteractWithAIOutput cfg s t aiOutput rand now e
          = (.ok ⟨false, check.reason⟩, s))
    ∧ (∀ check, detectControlResponse cfg aiOutput = some check →
        check.shouldPost = true →
        shouldInteractWithAIOutput cfg s t aiOutput rand now e
          = shouldInteract cfg s t rand now e) := by
  refine ⟨?_, ?_, ?_⟩
  · intro check convId hdet hsp hct hconv
    have heq : shouldInteractWithAIOutput cfg s t aiOutput rand now e
        = ((muteThread s convId
              (jsStrOr check.reason "AI requested thread mute") now e).2.map
             (fun _ => ⟨false, check.reason⟩),
           (muteThread s convId
              (jsStrOr check.reason "AI requested thread mute") now e).1) := by
      unfold shouldInteractWithAIOutput
      rw [hdet]
      simp only [hsp, Bool.false_eq_true, if_false, hct, hconv]
    refine ⟨heq, ?_⟩
    rw [heq]
    exact mutedIn_muteThread_self s convId _ now e
  · intro check hdet hsp hdisj
    unfold shouldInteractWithAIOutput
    rw [hdet]
    simp only [hsp, Bool.false_eq_true, if_false]
    rcases hdisj with hne | hnone
    · cases hct : check.controlType with
      | none => rfl
      | some ct =>
        cases ct with
        | NO_RESPONSE => rfl
        | MUTE_THREAD => exact absurd hct hne
    · rw [hnone]
      cases check.controlType with
      | none => rfl
      | some ct => cases ct <;> rfl
  · intro check hdet hsp
    unfold shouldInteractWithAIOutput
    rw [hdet]
    simp only [hsp, if_true]

theorem shouldInteractWithAIOutput_spec_witness :
    shouldInteractWithAIOutput defaultConfig emptyState
      ⟨some "x", some "c1", some "hello", none, none, none, none, none⟩
      "MUTE_THREAD" 0 3 (.ok ())
      = (.ok ⟨false, some "Explicit MUTE_THREAD command"⟩,
         (muteThread emptyState "c1" "Explicit MUTE_THREAD command" 3
            (.ok ())).1) := by
  have h := (shouldInteractWithAIOutput_spec defaultConfig emptyState
      ⟨some "x", some "c1", some "hello", none, none, none, none, none⟩
      "MUTE_THREAD" 0 3 (.ok ())).1
    ⟨false, some .MUTE_THREAD, some "Explicit MUTE_THREAD command"⟩ "c1"
    (by decide) rfl rfl rfl
  exact h.1

/-- C9 counterexample: output `MUTE_THREAD` for a candidate with a derivable
thread id (`id` fallback, no `conversationId`) returns `interact = false`
but performs NO mute — the code tests only `tweet.conversationId` before
muting, so the claim's "mutes that thread" fails for the fallback case. -/
theorem gateAI_no_mute_on_fallback_thread :
    threadIdOf ⟨some "x", none, some "hello", none, none, none, none, none⟩
        = some "x"
    ∧ shouldInteractWithAIOutput defaultConfig emptyState
        ⟨some "x", none, some "hello", none, none, none, none, none⟩
        "MUTE_THREAD" 0 3 (.ok ())
        = (.ok ⟨false, some "Explicit MUTE_THREAD command"⟩, emptyState)
    ∧ mutedIn emptyState "x" = false := by
  refine ⟨rfl, ?_, rfl⟩
  decide

/-- The spec's notion of a JSON text having a `content` field: the text
parses as a JSON object with a member named `content` (used to state the
counterexample against the claim's "exactly when the content field is
lacking"). -/
def jsonHasContentField (s : String) : Bool :=
  match jsonParse s with
  | some (.obj fields) => fields.any (fun p => p.1 == "content")
  | _ => false

/-- C5 (amended): `detectControlResponse` characterized branch by branch:
empty text short-circuits; non-JSON text falls through to the raw text;
JSON primitives fall through to the raw text; a parsed object or array
whose `content` is absent or falsy yields the missing-content result; a
truthy string `content` becomes the effective text; the keyword phase tests
the exact directives after trimming and then the configured keywords
case-insensitively with the first match winning; and the spec's concrete
examples evaluate as stated. -/
theorem detectControlResponse_spec (cfg : InteractionConfig) :
    (detectControlResponse cfg "" = some ⟨false, none, some "Empty output"⟩)
    ∧ (∀ s, s ≠ "" → jsonParse s = none →
        detectControlResponse cfg s = some (controlKeywordScan cfg s))
    ∧ (∀ s j, s ≠ "" → jsonParse s = some j →
        jsTypeofObjectTruthy j = false →
        detectControlResponse cfg s = some (controlKeywordScan cfg s))
    ∧ (∀ s j, s ≠ "" → jsonParse s = some j →
        jsTypeofObjectTruthy j = true →
        jsValFalsy (jsContentField j) = true →
        detectControlResponse cfg s
          = some ⟨false, none, some "JSON response missing content field"⟩)
    ∧ (∀ s j c, s ≠ "" → jsonParse s = some j →
        jsTypeofObjectTruthy j = true →
        jsContentField j = some (.str c) → c ≠ "" →
        detectControlResponse cfg s = some (controlKeywordScan cfg c))
    ∧ (∀ text, strTrim text = "NO_RESPONSE" →
        controlKeywordScan cfg text
          = ⟨false, some .NO_RESPONSE, some "Explicit NO_RESPONSE command"⟩)
    ∧ (∀ text, strTrim text ≠ "NO_RESPONSE" → strTrim text = "MUTE_THREAD" →
        controlKeywordScan cfg text
          = ⟨false, some .MUTE_THREAD, some "Explicit MUTE_THREAD command"⟩)
    ∧ (∀ text kw, strTrim text ≠ "NO_RESPONSE" →
        strTrim text ≠ "MUTE_THREAD" →
        cfg.noResponseKeywords.find?
          (fun kw2 => jsIncludes (strToLower (strTrim text))
            (strToLower kw2)) = some kw →
        controlKeywordScan cfg text
          = ⟨false, some .NO_RESPONSE,
              some ("Contains no-response keyword: " ++ kw)⟩)
    ∧ (∀ text, strTrim text ≠ "NO_RESPONSE" → strTrim text ≠ "MUTE_THREAD" →
        cfg.noResponseKeywords.find?
          (fun kw2 => jsIncludes (strToLower (strTrim text))
            (strToLower kw2)) = none →
        controlKeywordScan cfg text = ⟨true, none, none⟩)
    ∧ (detectControlResponse defaultConfig "\x7b\"content\":\"hi\"\x7d"
        = some ⟨true, none, none⟩)
    ∧ (detectControlResponse defaultConfig "\x7b\"other\":\"x\"\x7d"
        = some ⟨false, none, some "JSON response missing content field"⟩)
    ∧ (detectControlResponse defaultConfig "NO_RESPONSE"
        = some ⟨false, some .NO_RESPONSE,
            some "Explicit NO_RESPONSE command"⟩) := by
  refine ⟨rfl, ?_, ?_, ?_, ?_, ?_, ?_, ?_, ?_, by decide, by decide,
    by decide⟩
  · intro s hs hp
    simp [detectControlResponse, hs, hp]
  · intro s j hs hp ht
    simp [detectControlResponse, hs, hp, ht]
  · intro s j hs hp ht hf
    simp [detectControlResponse, hs, hp, ht, hf]
  · intro s j c hs hp ht hc hcne
    have hfal : jsValFalsy (some (.str c)) = false := by
      simp [jsValFalsy, hcne]
    simp [detectControlResponse, hs, hp, ht, hc, hfal]
  · intro text hN
    simp [controlKeywordScan, hN]
  · intro text hN hM
    simp [controlKeywordScan, hN, hM]
  · intro text kw hN hM hf
    simp [controlKeywordScan, hN, hM, hf]
  · intro text hN hM hf
    simp [controlKeywordScan, hN, hM, hf]

theorem detectControlResponse_spec_witness :
    detectControlResponse defaultConfig "hello there"
      = some (controlKeywordScan defaultConfig "hello there") :=
  (detectControlResponse_spec defaultConfig).2.1 "hello there"
    (by decide) rfl

/-- C5 counterexample: `{"content":""}` has a `content` field, yet the code
returns the missing-content result because `!jsonOutput.content` tests JS
truthiness; had it continued with the (empty) content as the claim states,
the keyword phase would have returned `shouldPost = true`. -/
theorem detect_missing_content_despite_present_field :
    jsonHasContentField "\x7b\"content\":\"\"\x7d" = true
    ∧ detectControlResponse defaultConfig "\x7b\"content\":\"\"\x7d"
        = some ⟨false, none, some "JSON response missing content field"⟩
    ∧ controlKeywordScan defaultConfig "" = ⟨true, none, none⟩ := by
  decide

end Arok
